import Mathlib

/-!
Shallow embedding of the inventory-ledger core of `telegram-bot/bot.py`.

The durable sqlite table `stock (sku TEXT PRIMARY KEY, name TEXT, qty
INTEGER)` is modelled as a list of rows; `SELECT ... WHERE sku = ?`
returns the first matching row, `UPDATE`/`DELETE ... WHERE sku = ?`
rewrite every matching row, `INSERT` appends a row, and
`ORDER BY sku` sorts by the `sku` column (sqlite's binary collation on
UTF-8 text coincides with the codepoint-lexicographic order on `String`).
Quantities are sqlite INTEGERs, modelled as `Int`.
-/

namespace StockBot

structure StockItem where
  sku : String
  name : String
  qty : Int
deriving DecidableEq

/-- The contents of the `stock` table, one `StockItem` per row. -/
abbrev Store := List StockItem

/-- `SELECT sku, name, qty FROM stock WHERE sku = ?`: first matching row. -/
def get_stock (s : Store) (sku : String) : Option StockItem :=
  match s with
  | [] => none
  | r :: rest => if r.sku = sku then some r else get_stock rest sku

/-- `UPDATE stock SET qty = ? WHERE sku = ?`: rewrite the qty of every
matching row. -/
def update_qty (sku : String) (v : Int) : Store → Store
  | [] => []
  | r :: rest =>
      (if r.sku = sku then { r with qty := v } else r) :: update_qty sku v rest

/-- `DELETE FROM stock WHERE sku = ?`: drop every matching row. -/
def delete_rows (sku : String) : Store → Store
  | [] => []
  | r :: rest =>
      if r.sku = sku then delete_rows sku rest else r :: delete_rows sku rest

/-- `add_or_update_sku(sku, name, qty)` from bot.py: fetch the row; if it
exists add `qty` to the stored quantity (the stored name is untouched),
otherwise insert `(sku, name, qty)`.  The Python function always returns
`True`, so only the new store is modelled. -/
def add_or_update_sku (s : Store) (sku name : String) (qty : Int) : Store :=
  match get_stock s sku with
  | some row => update_qty sku (row.qty + qty) s
  | none => s ++ [⟨sku, name, qty⟩]

/-- The `(ok, payload)` pair returned by `reduce_stock`: `(False, "SKU not
found")`, `(False, f"Not enough stock (have {current})")`, or
`(True, new_q)`. -/
inductive SellResult where
  | notFound
  | insufficient (current : Int)
  | ok (newQty : Int)
deriving DecidableEq

/-- `reduce_stock(sku, amount)` from bot.py: fetch the row; absent SKU
fails with not-found; `amount > current` fails carrying `current`;
otherwise store `current - amount` and return it. -/
def reduce_stock (s : Store) (sku : String) (amount : Int) :
    SellResult × Store :=
  match get_stock s sku with
  | none => (.notFound, s)
  | some row =>
      if amount > row.qty then (.insufficient row.qty, s)
      else
        let new_q := row.qty - amount
        (.ok new_q, update_qty sku new_q s)

/-- `delete_sku(sku)` from bot.py: fetch the row; absent SKU returns
`False` with no change, otherwise delete the row and return `True`. -/
def delete_sku (s : Store) (sku : String) : Bool × Store :=
  match get_stock s sku with
  | none => (false, s)
  | some _ => (true, delete_rows sku s)

/-- The row ordering used by `SELECT ... ORDER BY sku`: sqlite's default
BINARY collation on UTF-8 text, i.e. lexicographic on the codepoint
sequence of the `sku` column. -/
def skuLe (a b : StockItem) : Prop := a.sku.data ≤ b.sku.data

instance : DecidableRel skuLe :=
  fun a b => inferInstanceAs (Decidable (a.sku.data ≤ b.sku.data))

instance : IsTotal StockItem skuLe := ⟨fun a b => le_total a.sku.data b.sku.data⟩

instance : IsTrans StockItem skuLe := ⟨fun _ _ _ h h2 => le_trans h h2⟩

theorem skuLe_iff_le (a b : StockItem) : skuLe a b ↔ a.sku ≤ b.sku :=
  String.le_iff_toList_le.symm

/-- `list_all()` from bot.py: `SELECT sku, name, qty FROM stock ORDER BY
sku` — all rows, sorted ascending by the `sku` column. -/
def list_all (s : Store) : List StockItem :=
  List.insertionSort skuLe s

/-! ### Python string primitives used by the batch commands -/

/-- The whitespace characters removed by Python `str.strip()` (ASCII
whitespace; exotic unicode spaces are out of scope of the payloads
modelled here). -/
def isPySpace (c : Char) : Bool :=
  c = ' ' ∨ c = '\t' ∨ c = '\n' ∨ c = '\r' ∨ c = '\x0b' ∨ c = '\x0c'

/-- Python `str.strip()`: drop leading and trailing whitespace. -/
def pyStrip (s : String) : String :=
  ⟨((s.data.dropWhile isPySpace).reverse.dropWhile isPySpace).reverse⟩

/-- Python `str.split(sep)` for a one-character separator: every
occurrence of `sep` ends a segment, and `"".split(sep) == [""]`. -/
def splitChar (sep : Char) : List Char → List (List Char)
  | [] => [[]]
  | c :: cs =>
      match splitChar sep cs with
      | [] => [[c]]
      | g :: gs => if c = sep then [] :: g :: gs else (c :: g) :: gs

def pySplit (sep : Char) (s : String) : List String :=
  (splitChar sep s.data).map fun l => ⟨l⟩

/-- Python `int(text)` on an already-stripped string: an optional sign
followed by one or more ASCII decimal digits; anything else raises
`ValueError` (`none` here).  Underscore separators and non-ASCII digits,
which CPython also accepts, are out of scope of the payloads modelled
here. -/
def parseInt (s : String) : Option Int :=
  let core : List Char → Option Int := fun ds =>
    if ds ≠ [] ∧ ds.all Char.isDigit then
      some (Int.ofNat (ds.foldl (fun n c => 10 * n + (c.toNat - 48)) 0))
    else none
  match s.data with
  | '-' :: rest => (core rest).map Int.neg
  | '+' :: rest => core rest
  | l => core l

/-! ### Batch processors -/

/-- Per-entry outcome of `/addbulk`: the three `results.append` branches
of `addbulk_cmd`. -/
inductive AddOutcome where
  | invalidFormat (raw : String)
  | invalidQuantity (sku raw : String)
  | applied (sku name : String) (qty : Int)
deriving DecidableEq

/-- Per-entry outcome of `/sellbulk`: invalid format, invalid quantity,
or the result of `reduce_stock` (the two error strings, or success with
the new quantity). -/
inductive SellOutcome where
  | invalidFormat (raw : String)
  | invalidQuantity (sku raw : String)
  | notFound (sku : String)
  | insufficient (sku : String) (current : Int)
  | applied (sku : String) (qty newQty : Int)
deriving DecidableEq

def AddOutcome.isApplied : AddOutcome → Bool
  | .applied _ _ _ => true
  | _ => false

def SellOutcome.isApplied : SellOutcome → Bool
  | .applied _ _ _ => true
  | _ => false

/-- Loop body of `addbulk_cmd`: split the entry on `|`, strip each
field; wrong arity → invalid format; non-integer quantity → invalid
quantity; otherwise call `add_or_update_sku`. -/
def processAddEntry (s : Store) (entry : String) : AddOutcome × Store :=
  match (pySplit '|' entry).map pyStrip with
  | [sku, name, qty_str] =>
      match parseInt qty_str with
      | none => (.invalidQuantity sku qty_str, s)
      | some qty => (.applied sku name qty, add_or_update_sku s sku name qty)
  | _ => (.invalidFormat entry, s)

/-- Loop body of `sellbulk_cmd`: split on `|`, strip; wrong arity →
invalid format; non-integer quantity → invalid quantity; otherwise call
`reduce_stock` and report its outcome. -/
def processSellEntry (s : Store) (entry : String) : SellOutcome × Store :=
  match (pySplit '|' entry).map pyStrip with
  | [sku, qty_str] =>
      match parseInt qty_str with
      | none => (.invalidQuantity sku qty_str, s)
      | some qty =>
          match reduce_stock s sku qty with
          | (.notFound, s1) => (.notFound sku, s1)
          | (.insufficient c, s1) => (.insufficient sku c, s1)
          | (.ok n, s1) => (.applied sku qty n, s1)
  | _ => (.invalidFormat entry, s)

/-- The `for entry in parts` loop of `addbulk_cmd`: one outcome appended
per entry, the store threaded left to right. -/
def processAddEntries (s : Store) : List String → List AddOutcome × Store
  | [] => ([], s)
  | e :: rest =>
      let (o, s1) := processAddEntry s e
      let (os, s2) := processAddEntries s1 rest
      (o :: os, s2)

/-- The `for entry in parts` loop of `sellbulk_cmd`. -/
def processSellEntries (s : Store) : List String → List SellOutcome × Store
  | [] => ([], s)
  | e :: rest =>
      let (o, s1) := processSellEntry s e
      let (os, s2) := processSellEntries s1 rest
      (o :: os, s2)

/-- Whole-batch result of a bulk command: the early `usage` reply for an
empty payload, the `No valid entries found.` reply when splitting leaves
nothing, or the collected per-entry outcomes. -/
inductive BatchResult (α : Type) where
  | usageError
  | noValidEntries
  | outcomes (os : List α)
deriving DecidableEq

/-- `parts = [p.strip() for p in text.split(";") if p.strip()]`. -/
def batchParts (text : String) : List String :=
  ((pySplit ';' text).map pyStrip).filter (fun p => p ≠ "")

/-- `addbulk_cmd` from bot.py, applied to the stripped remainder of the
message after the command word. -/
def addbulk_cmd (s : Store) (text0 : String) : BatchResult AddOutcome × Store :=
  let text := pyStrip text0
  if text = "" then (.usageError, s)
  else
    match batchParts text with
    | [] => (.noValidEntries, s)
    | e :: rest =>
        let (os, s1) := processAddEntries s (e :: rest)
        (.outcomes os, s1)

/-- `sellbulk_cmd` from bot.py, applied to the stripped remainder of the
message after the command word. -/
def sellbulk_cmd (s : Store) (text0 : String) : BatchResult SellOutcome × Store :=
  let text := pyStrip text0
  if text = "" then (.usageError, s)
  else
    match batchParts text with
    | [] => (.noValidEntries, s)
    | e :: rest =>
        let (os, s1) := processSellEntries s (e :: rest)
        (.outcomes os, s1)

/-! ### Operation histories (for properties about SKUs never inserted) -/

/-- One core mutation, as dispatched by the command handlers. -/
inductive Op where
  | upsert (sku name : String) (qty : Int)
  | sell (sku : String) (amount : Int)
  | delete (sku : String)
deriving DecidableEq

/-- The store mutation performed by one command. -/
def applyOp (s : Store) : Op → Store
  | .upsert sku name q => add_or_update_sku s sku name q
  | .sell sku a => (reduce_stock s sku a).2
  | .delete sku => (delete_sku s sku).2

/-- Run a history of commands left to right. -/
def runOps (s : Store) : List Op → Store
  | [] => s
  | op :: rest => runOps (applyOp s op) rest

/-- The SKU an operation would insert, if any: only `upsert` ever creates
a row. -/
def upsertSku : Op → Option String
  | .upsert sku _ _ => some sku
  | _ => none

/-! ### Helper lemmas about the row-level primitives -/

theorem get_stock_update_self (s : Store) (k : String) (v : Int) (r : StockItem)
    (h : get_stock s k = some r) :
    get_stock (update_qty k v s) k = some { r with qty := v } := by
  induction s with
  | nil => simp [get_stock] at h
  | cons hd tl ih =>
      by_cases hhd : hd.sku = k
      · simp only [get_stock, update_qty, if_pos hhd] at h ⊢
        cases h
        simp [get_stock, hhd]
      · simp only [get_stock, update_qty, if_neg hhd] at h ⊢
        exact ih h

theorem get_stock_update_none (s : Store) (k k' : String) (v : Int)
    (h : get_stock s k' = none) :
    get_stock (update_qty k v s) k' = none := by
  induction s with
  | nil => rfl
  | cons hd tl ih =>
      by_cases hhd : hd.sku = k'
      · simp [get_stock, if_pos hhd] at h
      · simp only [get_stock, if_neg hhd] at h
        by_cases hk : hd.sku = k
        · simp only [update_qty, if_pos hk, get_stock]
          rw [if_neg (by simpa [hk] using hhd)]
          exact ih h
        · simp only [update_qty, if_neg hk, get_stock, if_neg hhd]
          exact ih h

theorem get_stock_append_self (s : Store) (k : String) (r : StockItem)
    (h : get_stock s k = none) (hr : r.sku = k) :
    get_stock (s ++ [r]) k = some r := by
  induction s with
  | nil => simp [get_stock, if_pos hr]
  | cons hd tl ih =>
      by_cases hhd : hd.sku = k
      · simp [get_stock, if_pos hhd] at h
      · simp only [get_stock, if_neg hhd] at h
        simpa [get_stock, if_neg hhd] using ih h

theorem get_stock_append_ne (s : Store) (k : String) (r : StockItem)
    (hr : r.sku ≠ k) :
    get_stock (s ++ [r]) k = get_stock s k := by
  induction s with
  | nil => simp [get_stock, if_neg hr]
  | cons hd tl ih =>
      by_cases hhd : hd.sku = k
      · simp [get_stock, if_pos hhd]
      · simpa [get_stock, if_neg hhd] using ih

theorem get_stock_delete_self (s : Store) (k : String) :
    get_stock (delete_rows k s) k = none := by
  induction s with
  | nil => rfl
  | cons hd tl ih =>
      by_cases hhd : hd.sku = k
      · simpa [delete_rows, if_pos hhd] using ih
      · simpa [delete_rows, if_neg hhd, get_stock, if_neg hhd] using ih

theorem get_stock_delete_none (s : Store) (k k' : String)
    (h : get_stock s k' = none) :
    get_stock (delete_rows k s) k' = none := by
  induction s with
  | nil => rfl
  | cons hd tl ih =>
      by_cases hhd : hd.sku = k'
      · simp [get_stock, if_pos hhd] at h
      · simp only [get_stock, if_neg hhd] at h
        by_cases hk : hd.sku = k
        · simpa [delete_rows, if_pos hk] using ih h
        · simpa [delete_rows, if_neg hk, get_stock, if_neg hhd] using ih h

theorem add_or_update_preserves_absent (s : Store) (sku name : String) (q : Int)
    (k : String) (hk : sku ≠ k) (h : get_stock s k = none) :
    get_stock (add_or_update_sku s sku name q) k = none := by
  unfold add_or_update_sku
  cases hrow : get_stock s sku with
  | some row => exact get_stock_update_none s sku k _ h
  | none => rw [get_stock_append_ne s k ⟨sku, name, q⟩ hk]; exact h

theorem reduce_preserves_absent (s : Store) (sku : String) (a : Int) (k : String)
    (h : get_stock s k = none) :
    get_stock (reduce_stock s sku a).2 k = none := by
  unfold reduce_stock
  cases hrow : get_stock s sku with
  | none => exact h
  | some row =>
      by_cases hgt : a > row.qty
      · simp only [if_pos hgt]; exact h
      · simp only [if_neg hgt]; exact get_stock_update_none s sku k _ h

theorem delete_preserves_absent (s : Store) (sku k : String)
    (h : get_stock s k = none) :
    get_stock (delete_sku s sku).2 k = none := by
  unfold delete_sku
  cases hrow : get_stock s sku with
  | none => exact h
  | some row => exact get_stock_delete_none s sku k h

theorem get_stock_mem (s : Store) (k : String) (r : StockItem)
    (h : get_stock s k = some r) : r ∈ s ∧ r.sku = k := by
  induction s with
  | nil => simp [get_stock] at h
  | cons hd tl ih =>
      by_cases hhd : hd.sku = k
      · simp only [get_stock, if_pos hhd] at h
        cases h
        exact ⟨List.mem_cons_self _ _, hhd⟩
      · simp only [get_stock, if_neg hhd] at h
        exact ⟨List.mem_cons_of_mem _ (ih h).1, (ih h).2⟩

theorem get_stock_eq_none_iff (s : Store) (k : String) :
    get_stock s k = none ↔ ∀ r ∈ s, r.sku ≠ k := by
  induction s with
  | nil => simp [get_stock]
  | cons hd tl ih =>
      by_cases hhd : hd.sku = k
      · simp [get_stock, if_pos hhd, hhd]
      · simp [get_stock, if_neg hhd, ih, hhd]

theorem runOps_absent (ops : List Op) (s : Store) (k : String)
    (h0 : get_stock s k = none) (h : ∀ op ∈ ops, upsertSku op ≠ some k) :
    get_stock (runOps s ops) k = none := by
  induction ops generalizing s with
  | nil => exact h0
  | cons op rest ih =>
      have hop : upsertSku op ≠ some k := h op (List.mem_cons_self _ _)
      have hrest : ∀ o ∈ rest, upsertSku o ≠ some k :=
        fun o ho => h o (List.mem_cons_of_mem _ ho)
      refine ih (applyOp s op) ?_ hrest
      cases op with
      | upsert sku name q =>
          have hk : sku ≠ k := by
            intro hkk
            exact hop (by simp [upsertSku, hkk])
          exact add_or_update_preserves_absent s sku name q k hk h0
      | sell sku a => exact reduce_preserves_absent s sku a k h0
      | delete sku => exact delete_preserves_absent s sku k h0

theorem reduce_stock_fail_snd (s : Store) (sku : String) (a : Int) (r : SellResult)
    (s1 : Store) (h : reduce_stock s sku a = (r, s1))
    (hr : ∀ n, r ≠ SellResult.ok n) : s1 = s := by
  unfold reduce_stock at h
  split at h
  · cases h; rfl
  · split at h
    · cases h; rfl
    · cases h
      exact absurd rfl (hr _)

/-! ### Claim theorems -/

/-- C1: upserting an absent SKU and then upserting it again stores
quantity `d1 + d2` and keeps the name supplied at the first (creating)
upsert; the second name is ignored. -/
theorem upsert_create_then_accumulate (s : Store) (sku n1 n2 : String) (d1 d2 : Int)
    (h : get_stock s sku = none) :
    get_stock (add_or_update_sku (add_or_update_sku s sku n1 d1) sku n2 d2) sku
      = some ⟨sku, n1, d1 + d2⟩ := by
  have h1 : add_or_update_sku s sku n1 d1 = s ++ [⟨sku, n1, d1⟩] := by
    unfold add_or_update_sku
    rw [h]
  have h2 : get_stock (s ++ [⟨sku, n1, d1⟩]) sku = some ⟨sku, n1, d1⟩ :=
    get_stock_append_self s sku ⟨sku, n1, d1⟩ h rfl
  rw [h1]
  unfold add_or_update_sku
  rw [h2]
  exact get_stock_update_self _ sku (d1 + d2) ⟨sku, n1, d1⟩ h2

/-- Witness for C1 at a concrete input: create `"A"` with name
`"First"` and delta `2`, then upsert it with name `"Second"` and delta
`3`; the row reads `("A", "First", 5)`. -/
theorem upsert_create_then_accumulate_witness :
    get_stock (add_or_update_sku (add_or_update_sku [] "A" "First" 2) "A" "Second" 3) "A"
      = some ⟨"A", "First", 5⟩ :=
  upsert_create_then_accumulate [] "A" "First" "Second" 2 3 rfl

/-- C3: `reduce_stock` with `amount` above the current quantity fails
carrying the current quantity and returns the store unchanged; on an
absent SKU it fails with not-found and returns the store unchanged. -/
theorem reduce_stock_error_cases :
    (∀ (s : Store) (sku : String) (amount : Int) (row : StockItem),
        get_stock s sku = some row → row.qty < amount →
        reduce_stock s sku amount = (.insufficient row.qty, s))
    ∧ (∀ (s : Store) (sku : String) (amount : Int),
        get_stock s sku = none →
        reduce_stock s sku amount = (.notFound, s)) := by
  constructor
  · intro s sku amount row h hlt
    unfold reduce_stock
    rw [h]
    simp [hlt]
  · intro s sku amount h
    unfold reduce_stock
    rw [h]

/-- Witness for C3 at concrete inputs: selling `7` of `"A"` (stock `5`)
fails carrying `5` with no change; selling from absent `"B"` fails with
not-found and no change. -/
theorem reduce_stock_error_cases_witness :
    reduce_stock [⟨"A", "Ax", 5⟩] "A" 7 = (.insufficient 5, [⟨"A", "Ax", 5⟩])
    ∧ reduce_stock [⟨"A", "Ax", 5⟩] "B" 7 = (.notFound, [⟨"A", "Ax", 5⟩]) :=
  ⟨reduce_stock_error_cases.1 [⟨"A", "Ax", 5⟩] "A" 7 ⟨"A", "Ax", 5⟩ rfl (by decide),
   reduce_stock_error_cases.2 [⟨"A", "Ax", 5⟩] "B" 7 rfl⟩

/-- C4: for an existing SKU and `0 ≤ amount ≤ quantity`, `reduce_stock`
returns the new quantity `q - amount` and an immediately following
lookup observes exactly `q - amount`, applied once. -/
theorem reduce_stock_applies_once (s : Store) (sku : String) (amount : Int)
    (row : StockItem) (h : get_stock s sku = some row)
    (h0 : 0 ≤ amount) (hle : amount ≤ row.qty) :
    (reduce_stock s sku amount).1 = .ok (row.qty - amount)
    ∧ get_stock (reduce_stock s sku amount).2 sku
        = some { row with qty := row.qty - amount } := by
  have hstep : reduce_stock s sku amount
      = (.ok (row.qty - amount), update_qty sku (row.qty - amount) s) := by
    unfold reduce_stock
    rw [h]
    simp [not_lt.mpr hle]
  rw [hstep]
  exact ⟨rfl, get_stock_update_self s sku (row.qty - amount) row h⟩

/-- Witness for C4 at a concrete input: selling `3` of `"A"` with stock
`5` returns `2` and the following lookup reads `2`. -/
theorem reduce_stock_applies_once_witness :
    (reduce_stock [⟨"A", "Ax", 5⟩] "A" 3).1 = .ok 2
    ∧ get_stock (reduce_stock [⟨"A", "Ax", 5⟩] "A" 3).2 "A" = some ⟨"A", "Ax", 2⟩ :=
  reduce_stock_applies_once [⟨"A", "Ax", 5⟩] "A" 3 ⟨"A", "Ax", 5⟩ rfl
    (by decide) (by decide)

/-- C6: deleting an absent SKU returns `False` and leaves the store
unchanged; deleting a present SKU returns `True` (no further payload)
and a subsequent lookup of that SKU finds nothing. -/
theorem delete_sku_cases :
    (∀ (s : Store) (sku : String), get_stock s sku = none →
        delete_sku s sku = (false, s))
    ∧ (∀ (s : Store) (sku : String) (row : StockItem), get_stock s sku = some row →
        (delete_sku s sku).1 = true
        ∧ get_stock (delete_sku s sku).2 sku = none) := by
  constructor
  · intro s sku h
    unfold delete_sku
    rw [h]
  · intro s sku row h
    unfold delete_sku
    rw [h]
    exact ⟨rfl, get_stock_delete_self s sku⟩

/-- Witness for C6 at concrete inputs: deleting absent `"B"` returns
`False` with the store intact; deleting present `"A"` returns `True`
and the following lookup of `"A"` finds nothing. -/
theorem delete_sku_cases_witness :
    delete_sku [⟨"A", "Ax", 5⟩] "B" = (false, [⟨"A", "Ax", 5⟩])
    ∧ (delete_sku [⟨"A", "Ax", 5⟩] "A").1 = true
    ∧ get_stock (delete_sku [⟨"A", "Ax", 5⟩] "A").2 "A" = none :=
  ⟨delete_sku_cases.1 [⟨"A", "Ax", 5⟩] "B" rfl,
   delete_sku_cases.2 [⟨"A", "Ax", 5⟩] "A" ⟨"A", "Ax", 5⟩ rfl⟩

/-- C7: `list_all` returns exactly the rows of the store (a permutation
of it) sorted ascending by SKU — both in the byte-collation order
`skuLe` and in the lexicographic `String` order; the empty store yields
the empty list; and after inserting `"B"`, `"A"`, `"C"` the SKUs come
back as `["A", "B", "C"]`. -/
theorem list_all_sorted_enumeration :
    (∀ s : Store, (list_all s).Perm s
      ∧ (list_all s).Sorted skuLe
      ∧ (list_all s).Sorted (fun a b => a.sku ≤ b.sku))
    ∧ list_all ([] : Store) = []
    ∧ (list_all (add_or_update_sku (add_or_update_sku
          (add_or_update_sku [] "B" "Bravo" 1) "A" "Alpha" 2) "C" "Charlie" 3)).map
        StockItem.sku = ["A", "B", "C"] := by
  refine ⟨fun s => ⟨List.perm_insertionSort skuLe s, ?_, ?_⟩, rfl, by decide⟩
  · exact List.sorted_insertionSort skuLe s
  · exact (List.sorted_insertionSort skuLe s).imp
      (fun h => (skuLe_iff_le _ _).mp h)

/-- C9: `get_stock` returns a row stored under the requested SKU when
one is present, returns nothing exactly when no row carries that SKU,
and — over any history of commands run from the empty store — returns
nothing for every SKU that no upsert ever inserted.  (`get_stock` is a
pure function of the store, so it cannot modify state.) -/
theorem lookup_cases :
    (∀ (s : Store) (sku : String) (r : StockItem),
        get_stock s sku = some r → r ∈ s ∧ r.sku = sku)
    ∧ (∀ (s : Store) (sku : String),
        get_stock s sku = none ↔ ∀ r ∈ s, r.sku ≠ sku)
    ∧ (∀ (ops : List Op) (sku : String),
        (∀ op ∈ ops, upsertSku op ≠ some sku) →
        get_stock (runOps [] ops) sku = none) :=
  ⟨get_stock_mem, get_stock_eq_none_iff,
   fun ops sku h => runOps_absent ops [] sku rfl h⟩

/-- Witness for C9 at concrete inputs: in a one-row store the lookup of
`"A"` returns that stored row, and after the history upsert `"A"`, sell
`"A"`, delete `"A"` the never-inserted SKU `"B"` is still absent. -/
theorem lookup_cases_witness :
    (⟨"A", "Ax", 5⟩ ∈ ([⟨"A", "Ax", 5⟩] : Store)
        ∧ (⟨"A", "Ax", 5⟩ : StockItem).sku = "A")
    ∧ get_stock (runOps [] [.upsert "A" "Apple" 1, .sell "A" 1, .delete "A"]) "B"
        = none :=
  ⟨lookup_cases.1 [⟨"A", "Ax", 5⟩] "A" ⟨"A", "Ax", 5⟩ rfl,
   lookup_cases.2.2 [.upsert "A" "Apple" 1, .sell "A" 1, .delete "A"] "B"
     (by decide)⟩

/-- C10: `reduce_stock` never checks `amount ≥ 0`: on an existing SKU
with quantity `q ≥ 0` and any negative `amount`, the guard
`amount > q` passes, the call succeeds with `q - amount`, the stored
quantity becomes `q - amount`, and that is strictly more stock than
before. -/
theorem reduce_stock_negative_amount (s : Store) (sku : String) (row : StockItem)
    (a : Int) (h : get_stock s sku = some row) (hq : 0 ≤ row.qty) (ha : a < 0) :
    (reduce_stock s sku a).1 = .ok (row.qty - a)
    ∧ get_stock (reduce_stock s sku a).2 sku = some { row with qty := row.qty - a }
    ∧ row.qty < row.qty - a := by
  have hle : a ≤ row.qty := le_trans ha.le hq
  have hstep : reduce_stock s sku a
      = (.ok (row.qty - a), update_qty sku (row.qty - a) s) := by
    unfold reduce_stock
    rw [h]
    simp [not_lt.mpr hle]
  rw [hstep]
  refine ⟨rfl, get_stock_update_self s sku (row.qty - a) row h, ?_⟩
  omega

/-- Witness for C10 at a concrete input: selling `-3` of `"X"` with
stock `5` succeeds and raises the stored quantity to `8 > 5`. -/
theorem reduce_stock_negative_amount_witness :
    (reduce_stock [⟨"X", "Widget", 5⟩] "X" (-3)).1 = .ok 8
    ∧ get_stock (reduce_stock [⟨"X", "Widget", 5⟩] "X" (-3)).2 "X"
        = some ⟨"X", "Widget", 8⟩
    ∧ (5 : Int) < 8 :=
  reduce_stock_negative_amount [⟨"X", "Widget", 5⟩] "X" ⟨"X", "Widget", 5⟩ (-3)
    rfl (by decide) (by decide)

/-- C2: both batch loops emit exactly one outcome per entry in input
order; each step processes the head entry and hands the resulting store
to the remaining entries (sequential, no rollback); an entry whose
outcome is not `applied` leaves the store untouched (so a later failure
can never undo an earlier success); and the payload
`"X|Widget|5; Y|Gadget|bad; X|Widget|3"` on the empty store yields
applied(+5) / invalid-quantity(`"bad"`) / applied(+3) in order, with
`"X"` stored at `5` after the first entry and at `8` at the end. -/
theorem batch_sequential_no_rollback :
    (∀ (s : Store) (entries : List String),
        (processAddEntries s entries).1.length = entries.length)
    ∧ (∀ (s : Store) (entries : List String),
        (processSellEntries s entries).1.length = entries.length)
    ∧ (∀ (s : Store) (e : String) (rest : List String),
        processAddEntries s (e :: rest)
          = ((processAddEntry s e).1
                :: (processAddEntries (processAddEntry s e).2 rest).1,
             (processAddEntries (processAddEntry s e).2 rest).2))
    ∧ (∀ (s : Store) (e : String) (rest : List String),
        processSellEntries s (e :: rest)
          = ((processSellEntry s e).1
                :: (processSellEntries (processSellEntry s e).2 rest).1,
             (processSellEntries (processSellEntry s e).2 rest).2))
    ∧ (∀ (s : Store) (e : String),
        (processAddEntry s e).1.isApplied = false → (processAddEntry s e).2 = s)
    ∧ (∀ (s : Store) (e : String),
        (processSellEntry s e).1.isApplied = false → (processSellEntry s e).2 = s)
    ∧ addbulk_cmd [] "X|Widget|5; Y|Gadget|bad; X|Widget|3"
        = (.outcomes [.applied "X" "Widget" 5, .invalidQuantity "Y" "bad",
            .applied "X" "Widget" 3], [⟨"X", "Widget", 8⟩])
    ∧ (processAddEntry [] "X|Widget|5").2 = [⟨"X", "Widget", 5⟩] := by
  refine ⟨?_, ?_, fun s e rest => rfl, fun s e rest => rfl, ?_, ?_,
    by decide, by decide⟩
  · intro s entries
    induction entries generalizing s with
    | nil => rfl
    | cons e rest ih => simp [processAddEntries, ih]
  · intro s entries
    induction entries generalizing s with
    | nil => rfl
    | cons e rest ih => simp [processSellEntries, ih]
  · intro s e h
    unfold processAddEntry at h ⊢
    split at h
    · split at h
      · rfl
      · simp [AddOutcome.isApplied] at h
    · rfl
  · intro s e h
    unfold processSellEntry at h ⊢
    split at h
    · split at h
      · rfl
      · split at h
        · rename_i s1 heq
          exact reduce_stock_fail_snd _ _ _ _ _ heq (fun n hn => by cases hn)
        · rename_i c s1 heq
          exact reduce_stock_fail_snd _ _ _ _ _ heq (fun n hn => by cases hn)
        · simp [SellOutcome.isApplied] at h
    · rfl

/-- Witness for C2 at a concrete input: a malformed add entry and a
not-found sell entry each leave the store untouched. -/
theorem batch_sequential_no_rollback_witness :
    (processAddEntry [⟨"A", "Ax", 5⟩] "oops").2 = [⟨"A", "Ax", 5⟩]
    ∧ (processSellEntry [⟨"A", "Ax", 5⟩] "B|1").2 = [⟨"A", "Ax", 5⟩] :=
  ⟨batch_sequential_no_rollback.2.2.2.2.1 [⟨"A", "Ax", 5⟩] "oops" (by decide),
   batch_sequential_no_rollback.2.2.2.2.2.1 [⟨"A", "Ax", 5⟩] "B|1" (by decide)⟩

/-- C8: when splitting the stripped payload on `;` and discarding
whitespace-only segments leaves no entries (which covers empty and
whitespace-only payloads, whose stripped form is `""`), both bulk
commands answer with a single whole-batch error reply — the usage
message for an empty payload, otherwise `No valid entries found.` —
and return the store unmutated, with no per-entry outcomes. -/
theorem batch_empty_payload (s : Store) (t : String)
    (h : batchParts (pyStrip t) = []) :
    (addbulk_cmd s t = (.usageError, s) ∨ addbulk_cmd s t = (.noValidEntries, s))
    ∧ (sellbulk_cmd s t = (.usageError, s)
        ∨ sellbulk_cmd s t = (.noValidEntries, s)) := by
  constructor
  · unfold addbulk_cmd
    by_cases ht : pyStrip t = ""
    · rw [if_pos ht]; exact Or.inl rfl
    · rw [if_neg ht, h]; exact Or.inr rfl
  · unfold sellbulk_cmd
    by_cases ht : pyStrip t = ""
    · rw [if_pos ht]; exact Or.inl rfl
    · rw [if_neg ht, h]; exact Or.inr rfl

/-- Witness for C8 at a concrete input: the payload `"  ; ;; "` splits
to no usable entries, and both bulk commands on a one-row store report
a whole-batch error with the store intact. -/
theorem batch_empty_payload_witness :
    (addbulk_cmd [⟨"A", "Ax", 5⟩] "  ; ;; " = (.usageError, [⟨"A", "Ax", 5⟩])
      ∨ addbulk_cmd [⟨"A", "Ax", 5⟩] "  ; ;; " = (.noValidEntries, [⟨"A", "Ax", 5⟩]))
    ∧ (sellbulk_cmd [⟨"A", "Ax", 5⟩] "  ; ;; " = (.usageError, [⟨"A", "Ax", 5⟩])
      ∨ sellbulk_cmd [⟨"A", "Ax", 5⟩] "  ; ;; "
          = (.noValidEntries, [⟨"A", "Ax", 5⟩])) :=
  batch_empty_payload [⟨"A", "Ax", 5⟩] "  ; ;; " (by decide)

/-- Counterexample to C5 as stated: the sell-entry quantity `"-3"` is
not a non-negative integer, yet on the store `[("X", "Widget", 5)]` the
entry `"X|-3"` is not rejected as an invalid quantity — `int("-3")`
parses, `reduce_stock` is invoked, and the store is mutated to
quantity `8`. -/
theorem sell_negative_quantity_counterexample :
    parseInt "-3" = some (-3)
    ∧ (processSellEntry [⟨"X", "Widget", 5⟩] "X|-3").1
        ≠ SellOutcome.invalidQuantity "X" "-3"
    ∧ processSellEntry [⟨"X", "Widget", 5⟩] "X|-3"
        = (.applied "X" (-3) 8, [⟨"X", "Widget", 8⟩]) := by
  decide

/-- C5 amended: a two-field sell entry is rejected as an invalid
quantity, with the store untouched, exactly when its quantity field does
not parse as an integer at all; whenever the field parses as an integer
— negative integers included — `reduce_stock` is invoked with that
value and the entry's outcome and store are those of `reduce_stock`. -/
theorem sell_entry_integer_gate (s : Store) (entry sku qty_str : String)
    (hbits : (pySplit '|' entry).map pyStrip = [sku, qty_str]) :
    (parseInt qty_str = none →
        processSellEntry s entry = (.invalidQuantity sku qty_str, s))
    ∧ (∀ q : Int, parseInt qty_str = some q →
        processSellEntry s entry
          = (match reduce_stock s sku q with
             | (.notFound, s1) => (SellOutcome.notFound sku, s1)
             | (.insufficient c, s1) => (SellOutcome.insufficient sku c, s1)
             | (.ok n, s1) => (SellOutcome.applied sku q n, s1))) := by
  constructor
  · intro hp
    unfold processSellEntry
    rw [hbits]
    simp [hp]
  · intro q hp
    unfold processSellEntry
    rw [hbits]
    simp [hp]

/-- Witness for C5's amended claim at concrete inputs: on the store
`[("X", "Widget", 5)]` the entry `"X|bad"` is rejected with the store
intact, while `"X|-3"` reaches `reduce_stock` and yields its result. -/
theorem sell_entry_integer_gate_witness :
    processSellEntry [⟨"X", "Widget", 5⟩] "X|bad"
        = (.invalidQuantity "X" "bad", [⟨"X", "Widget", 5⟩])
    ∧ processSellEntry [⟨"X", "Widget", 5⟩] "X|-3"
        = (match reduce_stock [⟨"X", "Widget", 5⟩] "X" (-3) with
           | (.notFound, s1) => (SellOutcome.notFound "X", s1)
           | (.insufficient c, s1) => (SellOutcome.insufficient "X" c, s1)
           | (.ok n, s1) => (SellOutcome.applied "X" (-3) n, s1)) :=
  ⟨(sell_entry_integer_gate [⟨"X", "Widget", 5⟩] "X|bad" "X" "bad" (by decide)).1
      (by decide),
   (sell_entry_integer_gate [⟨"X", "Widget", 5⟩] "X|-3" "X" "-3" (by decide)).2
      (-3) (by decide)⟩

end StockBot
